import Mathlib

/-!
# Resume ATS analyzer: shallow embedding and verification

This file embeds the text-analysis core of the resume ATS backend
(`src/main.py`, function `parse_resume`, lines 83-136) and proves
properties of it.  Document text is modelled as a list of characters;
Python string operations (`lower`, `split`, `strip`, substring `in`,
the word-boundary regular-expression search) are embedded as executable
functions on character lists.  Scores are embedded with exact natural
and rational arithmetic: the source computes them with binary floating
point, and on every value reachable from the program (matched-keyword
counts 0..40, section counts 0..7 and the score pairs they induce) the
float results coincide with the exact truncated quotients used here.
-/

namespace ResumeATS

/-- Document text: a list of characters. -/
abbrev Text := List Char

/-- Python `str.lower()` (per-character ASCII lowering). -/
def lower (t : Text) : Text := t.map Char.toLower

/-- The keyword taxonomy `CATEGORY_KEYWORDS` (src/main.py lines 54-58),
in source (insertion) order: technical, uiux, business. -/
def CATEGORY_KEYWORDS : List (String × List Text) :=
  [("technical",
    (["python", "java", "c++", "javascript", "react", "nodejs", "django",
      "flask", "html", "css", "sql", "mongodb", "mysql", "git", "github",
      "linux", "aws", "docker", "kubernetes"].map String.toList)),
   ("uiux",
    (["figma", "adobe xd", "photoshop", "illustrator", "ux", "ui",
      "wireframing", "branding", "canva", "visual design"].map String.toList)),
   ("business",
    (["seo", "sem", "content marketing", "social media", "facebook ads",
      "google ads", "email marketing", "analytics", "brand development",
      "project management", "digital marketing"].map String.toList))]

/-- `ALL_KEYWORDS` (src/main.py line 60): the flattened taxonomy in
category order. -/
def ALL_KEYWORDS : List Text := (CATEGORY_KEYWORDS.map Prod.snd).flatten

/-- `SECTION_HEADERS` (src/main.py line 61). -/
def SECTION_HEADERS : List Text :=
  (["summary", "education", "experience", "projects", "skills",
    "certifications", "achievements"].map String.toList)

/-- The needle `w` occurs in `t` starting at index `i`. -/
def matchesAt (w t : Text) (i : ℕ) : Bool :=
  decide ((t.drop i).take w.length = w)

/-- Python substring test `w in t`: `w` occurs contiguously somewhere
in `t`. -/
def occursIn (w t : Text) : Bool :=
  (List.range (t.length + 1)).any (matchesAt w t)

/-- Specification-level reading of the substring test: `t` decomposes
around a contiguous occurrence of `w`. -/
def OccursSub (w t : Text) : Prop := ∃ s u, t = s ++ w ++ u

/-- A regular-expression word character (`\w`): letter, digit or
underscore (ASCII approximation of the Python `re` class). -/
def isWordChar (c : Char) : Bool := c.isAlphanum || c == '_'

/-- The needle `w` occurs at index `i` of `t` with a word boundary
(`\b`) on both sides. -/
def wordBoundaryAt (w t : Text) (i : ℕ) : Bool :=
  matchesAt w t i &&
    (i == 0 || !isWordChar (t.getD (i - 1) ' ')) &&
    (i + w.length == t.length || !isWordChar (t.getD (i + w.length) ' '))

/-- `re.search` of a word with `\b` boundaries: some position of `t`
carries a whole-word occurrence of `w`. -/
def wholeWordIn (w t : Text) : Bool :=
  (List.range (t.length + 1)).any (wordBoundaryAt w t)

/-- Specification-level reading of a whole-word occurrence: `t`
decomposes around `w` and the characters adjacent to `w` (when they
exist) are not word characters. -/
def OccursWholeWord (w t : Text) : Prop :=
  ∃ s u, t = s ++ w ++ u ∧
    (∀ c, s.getLast? = some c → isWordChar c = false) ∧
    (∀ c, u.head? = some c → isWordChar c = false)

/-- The education vocabulary of the regular expression at
src/main.py line 86. -/
def educationKeywords : List Text :=
  (["bachelor", "master", "education", "degree"].map String.toList)

/-- Education detector (src/main.py line 86): a case-insensitive
word-boundary search for any vocabulary word.  The `re.I` flag is
embedded by searching the lowered text, which leaves word-character
status of the adjacent characters unchanged. -/
def education (t : Text) : String :=
  if educationKeywords.any (fun w => wholeWordIn w (lower t)) then "Detected"
  else "Not Detected"

/-- `experience_keywords` (src/main.py line 88). -/
def experience_keywords : List Text :=
  (["experience", "years", "worked", "intern", "project", "developed"].map
    String.toList)

/-- Experience detector (src/main.py lines 88-90): a plain substring
test of each vocabulary word against the lowered text. -/
def experience (t : Text) : String :=
  if experience_keywords.any (fun w => occursIn w (lower t)) then "Detected"
  else "Not Detected"

/-- `matched_keywords` (src/main.py line 92): the keywords whose
lowered form is a substring of the lowered text, in taxonomy order. -/
def matched_keywords (t : Text) : List Text :=
  ALL_KEYWORDS.filter (fun kw => occursIn (lower kw) (lower t))

/-- `skill_score` (src/main.py line 93): the source computes
`int((len(matched)/len(ALL_KEYWORDS))*100)` in floating point; for
every count 0..40 that equals the exact truncated quotient below. -/
def skill_score (t : Text) : ℕ :=
  (matched_keywords t).length * 100 / ALL_KEYWORDS.length

/-- `matched_by_category` (src/main.py lines 95-98). -/
def matched_by_category (t : Text) : List (String × List Text) :=
  CATEGORY_KEYWORDS.map
    (fun p => (p.1, p.2.filter (fun kw => occursIn (lower kw) (lower t))))

/-- `present_sections` (src/main.py line 100): section headers whose
literal string occurs in the lowered text, in taxonomy order. -/
def present_sections (t : Text) : List Text :=
  SECTION_HEADERS.filter (fun sec => occursIn sec (lower t))

/-- `missing_sections` (src/main.py line 101): the source computes
`list(set(SECTION_HEADERS) - set(present_sections))`, whose order is
unspecified; since `SECTION_HEADERS` is duplicate-free this set
difference has exactly the members of the filter below. -/
def missing_sections (t : Text) : List Text :=
  SECTION_HEADERS.filter (fun sec => !occursIn sec (lower t))

/-- `section_score` (src/main.py line 102): the source computes
`int((len(present)/len(SECTION_HEADERS))*100)` in floating point; for
every count 0..7 that equals the exact truncated quotient below. -/
def section_score (t : Text) : ℕ :=
  (present_sections t).length * 100 / SECTION_HEADERS.length

/-- `ats_score` (src/main.py line 104): the source computes
`int(skill_score*0.6 + section_score*0.4)` in floating point; on every
reachable pair of scores that equals the exact truncated quotient
below. -/
def ats_score (t : Text) : ℕ :=
  (skill_score t * 6 + section_score t * 4) / 10

/-- Python `str.strip()`: drop whitespace from both ends. -/
def strip (l : Text) : Text :=
  ((l.dropWhile Char.isWhitespace).reverse.dropWhile Char.isWhitespace).reverse

/-- `lines` (src/main.py line 83): split on newline, strip each line,
keep the non-empty ones. -/
def lines (t : Text) : List Text :=
  ((t.splitOn '\n').map strip).filter (fun l => !l.isEmpty)

/-- Python `str.split()` with no argument: words separated by runs of
whitespace, with no empty words. -/
def words (l : Text) : List Text :=
  ((l.map (fun c => if c.isWhitespace then ' ' else c)).splitOn ' ').filter
    (fun w => !w.isEmpty)

/-- `name` (src/main.py line 84): the source evaluates
`lines[0] if 1 <= len(lines[0].split()) <= 4 else "Not Detected"`,
which indexes `lines[0]` unconditionally; on a document with zero
non-empty lines this raises `IndexError`, embedded as `Except.error`. -/
def name (t : Text) : Except Unit Text :=
  match lines t with
  | [] => Except.error ()
  | l :: _ =>
      Except.ok
        (if 1 ≤ (words l).length ∧ (words l).length ≤ 4 then l
         else "Not Detected".toList)

/-- Suggestion string 1 (src/main.py line 108). -/
def sugg1 : String :=
  "Include more technical and role-specific keywords to boost your ATS ranking."

/-- Suggestion string 2 (src/main.py line 110). -/
def sugg2 : String := "Add a professional summary at the top of your resume."

/-- Suggestion string 3 (src/main.py line 112). -/
def sugg3 : String :=
  "Include relevant projects to demonstrate your practical experience."

/-- Suggestion string 4 (src/main.py line 114). -/
def sugg4 : String := "Mention more tools or platforms like Git, Figma, or AWS."

/-- Suggestion string 5 (src/main.py line 116). -/
def sugg5 : String := "Clearly specify your educational background."

/-- Suggestion string 6 (src/main.py line 118). -/
def sugg6 : String := "Add work experience, internships, or personal projects."

/-- Suggestion string 7 (src/main.py line 120). -/
def sugg7 : String :=
  "Include a dedicated skills section listing your tools and technologies."

/-- `suggestions` (src/main.py lines 106-120): seven sequential
conditional appends, embedded as the concatenation of seven
conditional blocks in source order. -/
def suggestions (t : Text) : List String :=
  (if skill_score t < 60 then [sugg1] else []) ++
  (if "summary".toList ∉ present_sections t then [sugg2] else []) ++
  (if "projects".toList ∉ present_sections t then [sugg3] else []) ++
  (if (matched_keywords t).length < 8 then [sugg4] else []) ++
  (if education t = "Not Detected" then [sugg5] else []) ++
  (if experience t = "Not Detected" then [sugg6] else []) ++
  (if "skills".toList ∉ present_sections t then [sugg7] else [])

/-- The analysis record returned by `parse_resume`
(src/main.py lines 122-136), omitting the storage URL, which belongs to
the out-of-scope upload plumbing; the nested score breakdown is
flattened into two fields. -/
structure AnalysisResult where
  name : Text
  education : String
  experience : String
  skills : List Text
  matched_by_category : List (String × List Text)
  ats_score : ℕ
  skill_score : ℕ
  section_score : ℕ
  missing_sections : List Text
  suggestions : List String

/-- The analyzer body (src/main.py lines 83-136): name extraction runs
first and is the only step that can raise; an `IndexError` there
propagates to the catch-all handler, embedded as `Except.error`. -/
def analyze (t : Text) : Except Unit AnalysisResult :=
  match name t with
  | Except.error e => Except.error e
  | Except.ok n =>
      Except.ok
        ⟨n, education t, experience t, matched_keywords t,
         matched_by_category t, ats_score t, skill_score t, section_score t,
         missing_sections t, suggestions t⟩

/-- C1: on a document with zero non-empty lines the name detector
indexes `lines[0]` and raises, so the analyzer fails instead of
returning the graceful "Not Detected" record the claim describes. -/
theorem C1_empty_text_analyzer_raises :
    lines "".toList = [] ∧ analyze "".toList = Except.error () :=
  ⟨rfl, rfl⟩

theorem occursIn_iff (w t : Text) : occursIn w t = true ↔ OccursSub w t := by
  constructor
  · intro h
    rcases List.any_eq_true.mp h with ⟨i, _, hm⟩
    have hmatch : (t.drop i).take w.length = w := by
      simpa [matchesAt] using hm
    refine ⟨t.take i, (t.drop i).drop w.length, ?_⟩
    have h2 : t.drop i = w ++ (t.drop i).drop w.length := by
      conv_lhs => rw [← List.take_append_drop w.length (t.drop i)]
      rw [hmatch]
    calc t = t.take i ++ t.drop i := (List.take_append_drop i t).symm
    _ = t.take i ++ (w ++ (t.drop i).drop w.length) := by rw [← h2]
    _ = t.take i ++ w ++ (t.drop i).drop w.length := by rw [List.append_assoc]
  · rintro ⟨s, u, rfl⟩
    apply List.any_eq_true.mpr
    refine ⟨s.length, ?_, ?_⟩
    · simp only [List.mem_range, List.length_append]
      omega
    · simp only [matchesAt, decide_eq_true_eq]
      rw [List.append_assoc, List.drop_left]
      exact List.take_left w u

theorem wholeWordIn_iff (w t : Text) :
    wholeWordIn w t = true ↔ OccursWholeWord w t := by
  constructor
  · intro h
    rcases List.any_eq_true.mp h with ⟨i, hir, hb⟩
    have hir' : i ≤ t.length := by
      simpa [List.mem_range, Nat.lt_succ_iff] using hir
    simp only [wordBoundaryAt, Bool.and_eq_true, Bool.or_eq_true,
      Bool.not_eq_true', beq_iff_eq] at hb
    obtain ⟨⟨hm, hA⟩, hB⟩ := hb
    have hmatch : (t.drop i).take w.length = w := by
      simpa [matchesAt] using hm
    have hwlen : i + w.length ≤ t.length := by
      have hl := congrArg List.length hmatch
      simp [List.length_take, List.length_drop] at hl
      omega
    refine ⟨t.take i, t.drop (i + w.length), ?_, ?_, ?_⟩
    · have h2 : t.drop i = w ++ t.drop (i + w.length) := by
        conv_lhs => rw [← List.take_append_drop w.length (t.drop i)]
        rw [hmatch, List.drop_drop]
      calc t = t.take i ++ t.drop i := (List.take_append_drop i t).symm
      _ = t.take i ++ (w ++ t.drop (i + w.length)) := by rw [← h2]
      _ = t.take i ++ w ++ t.drop (i + w.length) := by rw [List.append_assoc]
    · intro c hc
      by_cases i0 : i = 0
      · subst i0; simp at hc
      · have hlen2 : (t.take i).length = i := by
          simp [List.length_take]; omega
        rw [List.getLast?_eq_getElem?, hlen2, List.getElem?_take,
          if_pos (by omega : i - 1 < i)] at hc
        rcases hA with h0 | hw
        · omega
        · have hgd : t.getD (i - 1) ' ' = c := by
            rw [List.getD_eq_getElem?_getD, hc]; rfl
          rw [← hgd]; exact hw
    · intro c hc
      rw [List.head?_eq_getElem?, List.getElem?_drop, Nat.add_zero] at hc
      rcases hB with hEnd | hw
      · rw [hEnd] at hc
        rw [List.getElem?_eq_none (le_refl _)] at hc
        cases hc
      · have hgd : t.getD (i + w.length) ' ' = c := by
          rw [List.getD_eq_getElem?_getD, hc]; rfl
        rw [← hgd]; exact hw
  · rintro ⟨s, u, rfl, hL, hR⟩
    apply List.any_eq_true.mpr
    refine ⟨s.length, ?_, ?_⟩
    · simp only [List.mem_range, List.length_append]
      omega
    · simp only [wordBoundaryAt, Bool.and_eq_true, Bool.or_eq_true,
        Bool.not_eq_true', beq_iff_eq]
      refine ⟨⟨?_, ?_⟩, ?_⟩
      · simp only [matchesAt, decide_eq_true_eq]
        rw [List.append_assoc, List.drop_left]
        exact List.take_left w u
      · by_cases hs : s = []
        · subst hs; left; rfl
        · right
          have hs1 : 0 < s.length := List.length_pos.mpr hs
          have hidx : (s ++ w ++ u)[s.length - 1]? = s[s.length - 1]? := by
            rw [List.getElem?_append, if_pos (by simp [List.length_append]; omega),
              List.getElem?_append, if_pos (by omega)]
          have hgl : s[s.length - 1]? = some (s.getLast hs) := by
            rw [← List.getLast?_eq_getElem?, List.getLast?_eq_getLast s hs]
          have : (s ++ w ++ u).getD (s.length - 1) ' ' = s.getLast hs := by
            rw [List.getD_eq_getElem?_getD, hidx, hgl]; rfl
          rw [this]
          exact hL (s.getLast hs) (List.getLast?_eq_getLast s hs)
      · by_cases hu : u = []
        · subst hu; left; simp [List.length_append]
        · right
          have hidx : (s ++ w ++ u)[s.length + w.length]? = u[0]? := by
            rw [List.getElem?_append,
              if_neg (by simp only [List.length_append]; omega)]
            simp [List.length_append]
          have hhd : u[0]? = some (u.head hu) := by
            rw [← List.head?_eq_getElem?, List.head?_eq_head hu]
          have : (s ++ w ++ u).getD (s.length + w.length) ' ' = u.head hu := by
            rw [List.getD_eq_getElem?_getD, hidx, hhd]; rfl
          rw [this]
          exact hR (u.head hu) (List.head?_eq_head hu)


theorem matched_keywords_length_le (t : Text) : (matched_keywords t).length ≤ 40 := by
  have h := List.length_filter_le
    (fun kw => occursIn (lower kw) (lower t)) ALL_KEYWORDS
  have e : ALL_KEYWORDS.length = 40 := rfl
  rw [e] at h
  exact h

theorem present_sections_length_le (t : Text) :
    (present_sections t).length ≤ 7 := by
  have h := List.length_filter_le (fun sec => occursIn sec (lower t)) SECTION_HEADERS
  have e : SECTION_HEADERS.length = 7 := rfl
  rw [e] at h
  exact h

theorem skill_score_le (t : Text) : skill_score t ≤ 100 := by
  have hm := matched_keywords_length_le t
  unfold skill_score
  have e : ALL_KEYWORDS.length = 40 := rfl
  rw [e]
  have h1 : (matched_keywords t).length * 100 ≤ 4000 := by omega
  have h2 : (matched_keywords t).length * 100 / 40 ≤ 4000 / 40 :=
    Nat.div_le_div_right h1
  norm_num at h2
  exact h2

theorem section_score_le (t : Text) : section_score t ≤ 100 := by
  have hm := present_sections_length_le t
  unfold section_score
  have e : SECTION_HEADERS.length = 7 := rfl
  rw [e]
  have h1 : (present_sections t).length * 100 ≤ 700 := by omega
  have h2 : (present_sections t).length * 100 / 7 ≤ 700 / 7 :=
    Nat.div_le_div_right h1
  norm_num at h2
  exact h2

theorem natDiv_floor_weighted (a b : ℕ) :
    (((a * 6 + b * 4) / 10 : ℕ) : ℤ) = ⌊(a : ℚ) * 0.6 + (b : ℚ) * 0.4⌋ := by
  have h : (a : ℚ) * 0.6 + (b : ℚ) * 0.4
      = ((a * 6 + b * 4 : ℕ) : ℚ) / ((10 : ℕ) : ℚ) := by
    push_cast; ring
  rw [h, Rat.floor_natCast_div_natCast]
  push_cast [Int.ofNat_div]
  norm_num

theorem ats_floor (t : Text) :
    (ats_score t : ℤ) = ⌊(skill_score t : ℚ) * 0.6 + (section_score t : ℚ) * 0.4⌋ := by
  unfold ats_score
  exact natDiv_floor_weighted _ _

theorem score_floor (a b : ℕ) :
    ((a * 100 / b : ℕ) : ℤ) = ⌊(100 * (a : ℚ)) / (b : ℚ)⌋ := by
  have h : (100 * (a : ℚ)) / (b : ℚ) = ((a * 100 : ℕ) : ℚ) / ((b : ℕ) : ℚ) := by
    push_cast; ring
  rw [h, Rat.floor_natCast_div_natCast]
  push_cast [Int.ofNat_div]
  norm_num

/-- C2: both sub-scores lie in [0, 100] (they are naturals, so the
lower bound is inherent), and the ats score is the truncated weighted
sum, exactly as the integer cast in the source computes it. -/
theorem C2_score_bounds_and_truncating_ats (t : Text) :
    skill_score t ≤ 100 ∧ section_score t ≤ 100 ∧
      (ats_score t : ℤ) = ⌊(skill_score t : ℚ) * 0.6 + (section_score t : ℚ) * 0.4⌋ :=
  ⟨skill_score_le t, section_score_le t, ats_floor t⟩

/-- C3 counterexample: the claim says the sub-scores round to nearest,
but the source truncates.  On the text "summary education" two of the
seven sections are present: the exact ratio is 200/7 = 28.57..., the
code yields 28, rounding would yield 29. -/
theorem C3_rounding_counterexample :
    ¬ (∀ t : Text,
        (skill_score t : ℤ) =
          round ((100 * ((matched_keywords t).length : ℚ)) / (ALL_KEYWORDS.length : ℚ)) ∧
        (section_score t : ℤ) =
          round ((100 * ((present_sections t).length : ℚ)) / (SECTION_HEADERS.length : ℚ))) := by
  intro h
  have h2 := (h "summary education".toList).2
  have e1 : section_score "summary education".toList = 28 := by decide
  have e2 : (present_sections "summary education".toList).length = 2 := by decide
  have e3 : SECTION_HEADERS.length = 7 := rfl
  rw [e1, e2, e3] at h2
  norm_num [round_eq] at h2

/-- C3 amended: for every input the sub-scores are the truncated (not
rounded) percentages of matched keywords and present sections. -/
theorem C3_truncated_scores (t : Text) :
    (skill_score t : ℤ) =
      ⌊(100 * ((matched_keywords t).length : ℚ)) / (ALL_KEYWORDS.length : ℚ)⌋ ∧
    (section_score t : ℤ) =
      ⌊(100 * ((present_sections t).length : ℚ)) / (SECTION_HEADERS.length : ℚ)⌋ :=
  ⟨score_floor _ _, score_floor _ _⟩

/-- C4 counterexample: the claim says the ats score rounds the
weighted sum to nearest, but the source truncates.  On the text
"python sql summary" the scores are skill 5 and section 14, the
weighted sum is 8.6, the code yields 8, rounding would yield 9. -/
theorem C4_rounding_counterexample :
    ¬ (∀ t : Text,
        (ats_score t : ℤ) =
          round ((skill_score t : ℚ) * 0.6 + (section_score t : ℚ) * 0.4)) := by
  intro h
  have h2 := h "python sql summary".toList
  have e1 : ats_score "python sql summary".toList = 8 := by decide
  have e2 : skill_score "python sql summary".toList = 5 := by decide
  have e3 : section_score "python sql summary".toList = 14 := by decide
  rw [e1, e2, e3] at h2
  norm_num [round_eq] at h2

/-- C4 amended: for every input the ats score is the weighted sum
truncated toward zero (the floor on these nonnegative values), not
rounded to nearest. -/
theorem C4_ats_truncated (t : Text) :
    (ats_score t : ℤ) = ⌊(skill_score t : ℚ) * 0.6 + (section_score t : ℚ) * 0.4⌋ :=
  ats_floor t

/-- C5: present and missing sections are disjoint and together exhaust
the section taxonomy. -/
theorem C5_sections_partition (t : Text) (sec : Text) :
    ((sec ∈ present_sections t ∨ sec ∈ missing_sections t) ↔ sec ∈ SECTION_HEADERS) ∧
      ¬ (sec ∈ present_sections t ∧ sec ∈ missing_sections t) := by
  constructor
  · constructor
    · rintro (h | h)
      · exact (List.mem_filter.mp h).1
      · exact (List.mem_filter.mp h).1
    · intro h
      by_cases hb : occursIn sec (lower t) = true
      · left
        exact List.mem_filter.mpr ⟨h, hb⟩
      · right
        simp only [Bool.not_eq_true] at hb
        exact List.mem_filter.mpr ⟨h, by simp [hb]⟩
  · rintro ⟨h1, h2⟩
    have b1 := (List.mem_filter.mp h1).2
    have b2 := (List.mem_filter.mp h2).2
    simp [b1] at b2

theorem filter_flatten_map (p : Text → Bool) (L : List (String × List Text)) :
    ((L.map Prod.snd).flatten).filter p
      = ((L.map (fun q => (q.1, q.2.filter p))).map Prod.snd).flatten := by
  induction L with
  | nil => rfl
  | cons a L ih => simp [List.filter_append, ih]

/-- C6: each per-category matched list pairs with its taxonomy
category and is a subset of it, and the flat skills list is the
concatenation of the per-category matched lists in taxonomy order. -/
theorem C6_category_integrity (t : Text) :
    List.Forall₂ (fun p q => p.1 = q.1 ∧ p.2 ⊆ q.2)
        (matched_by_category t) CATEGORY_KEYWORDS ∧
      matched_keywords t = ((matched_by_category t).map Prod.snd).flatten := by
  constructor
  · simp only [matched_by_category, CATEGORY_KEYWORDS, List.map_cons, List.map_nil]
    refine List.Forall₂.cons ⟨rfl, ?_⟩
      (List.Forall₂.cons ⟨rfl, ?_⟩
        (List.Forall₂.cons ⟨rfl, ?_⟩ List.Forall₂.nil)) <;>
      exact (List.filter_sublist _).subset
  · unfold matched_keywords ALL_KEYWORDS matched_by_category
    exact filter_flatten_map _ CATEGORY_KEYWORDS

/-- C9: appending text never removes a matched keyword, so the skill
score is monotone under appending. -/
theorem C9_skill_score_monotone (t s : Text) :
    skill_score t ≤ skill_score (t ++ s) := by
  have hsub : (matched_keywords t).length ≤ (matched_keywords (t ++ s)).length := by
    apply List.Sublist.length_le
    apply List.monotone_filter_right
    intro kw hkw
    rw [occursIn_iff] at hkw ⊢
    rcases hkw with ⟨a, b, hab⟩
    refine ⟨a, b ++ lower s, ?_⟩
    have hl : lower (t ++ s) = lower t ++ lower s := by simp [lower]
    rw [hl, hab]
    simp [List.append_assoc]
  unfold skill_score
  exact Nat.div_le_div_right (Nat.mul_le_mul_right _ hsub)


/-- C8: the education detector fires exactly when some education
vocabulary word occurs as a case-insensitive whole word, while the
experience detector fires exactly when some experience vocabulary word
occurs as a plain substring of the lowered text. -/
theorem C8_detector_semantics (t : Text) :
    (education t = "Detected" ↔
      ∃ w ∈ educationKeywords, OccursWholeWord w (lower t)) ∧
    (experience t = "Detected" ↔
      ∃ w ∈ experience_keywords, OccursSub w (lower t)) := by
  constructor
  · unfold education
    split
    case isTrue h =>
      have hex := List.any_eq_true.mp h
      simp only [wholeWordIn_iff] at hex
      exact iff_of_true rfl hex
    case isFalse h =>
      apply iff_of_false
      · decide
      · intro hex
        apply h
        apply List.any_eq_true.mpr
        simpa only [wholeWordIn_iff] using hex
  · unfold experience
    split
    case isTrue h =>
      have hex := List.any_eq_true.mp h
      simp only [occursIn_iff] at hex
      exact iff_of_true rfl hex
    case isFalse h =>
      apply iff_of_false
      · decide
      · intro hex
        apply h
        apply List.any_eq_true.mpr
        simpa only [occursIn_iff] using hex

/-- The specification reading of the suggestion generator: an ordered
checklist of condition/string rules, traversed once, each firing rule
contributing its string. -/
def suggestionRules (t : Text) : List (Bool × String) :=
  [(decide (skill_score t < 60), sugg1),
   (decide ("summary".toList ∉ present_sections t), sugg2),
   (decide ("projects".toList ∉ present_sections t), sugg3),
   (decide ((matched_keywords t).length < 8), sugg4),
   (decide (education t = "Not Detected"), sugg5),
   (decide (experience t = "Not Detected"), sugg6),
   (decide ("skills".toList ∉ present_sections t), sugg7)]

/-- The suggestions the checklist produces. -/
def suggestionsSpec (t : Text) : List String :=
  (suggestionRules t).filterMap (fun r => if r.1 then some r.2 else none)

theorem filterMapRule {c : Prop} [Decidable c] (s : String)
    (rest : List (Bool × String)) :
    List.filterMap (fun r => if r.1 then some r.2 else none)
        ((decide c, s) :: rest) =
      (if c then [s] else []) ++
        List.filterMap (fun r => if r.1 then some r.2 else none) rest := by
  by_cases h : c <;> simp [List.filterMap_cons, h]

theorem ite_singleton_sublist {c : Prop} [Decidable c] (a : String) :
    (if c then [a] else []).Sublist [a] := by
  split
  · exact List.Sublist.refl _
  · exact List.nil_sublist _

theorem mem_ite_singleton {c : Prop} [Decidable c] {a b : String} :
    a ∈ (if c then [b] else []) ↔ c ∧ a = b := by
  split
  case isTrue h => simp [h]
  case isFalse h => simp [h]

theorem suggestions_sublist (t : Text) :
    (suggestions t).Sublist [sugg1, sugg2, sugg3, sugg4, sugg5, sugg6, sugg7] := by
  unfold suggestions
  exact ((((((ite_singleton_sublist _).append (ite_singleton_sublist _)).append
    (ite_singleton_sublist _)).append (ite_singleton_sublist _)).append
    (ite_singleton_sublist _)).append (ite_singleton_sublist _)).append
    (ite_singleton_sublist _)

/-- C7: the suggestions list is exactly the output of the ordered
7-rule checklist, is an in-order selection from the seven fixed
strings, and so consists of 0-7 distinct strings. -/
theorem C7_suggestions_checklist (t : Text) :
    suggestions t = suggestionsSpec t ∧
      (suggestions t).Sublist [sugg1, sugg2, sugg3, sugg4, sugg5, sugg6, sugg7] ∧
      (suggestions t).Nodup ∧ (suggestions t).length ≤ 7 := by
  have hsub := suggestions_sublist t
  refine ⟨?_, hsub, List.Nodup.sublist hsub (by decide),
    le_trans hsub.length_le (by decide)⟩
  unfold suggestionsSpec suggestionRules suggestions
  rw [filterMapRule, filterMapRule, filterMapRule, filterMapRule, filterMapRule,
    filterMapRule, filterMapRule, List.filterMap_nil, List.append_nil]
  simp [List.append_assoc]

/-- C10: if the section detector saw "experience" or "projects" in the
text, the experience detector also fires (its vocabulary contains
"experience" and "project", substrings of those headers), so the
add-work-experience suggestion is not emitted. -/
theorem C10_section_implies_experience (t : Text)
    (h : "experience".toList ∈ present_sections t ∨
      "projects".toList ∈ present_sections t) :
    experience t = "Detected" ∧ sugg6 ∉ suggestions t := by
  have hdet : experience_keywords.any (fun w => occursIn w (lower t)) = true := by
    apply List.any_eq_true.mpr
    rcases h with h | h
    · exact ⟨"experience".toList, by decide, (List.mem_filter.mp h).2⟩
    · refine ⟨"project".toList, by decide, ?_⟩
      have hocc := (List.mem_filter.mp h).2
      rw [occursIn_iff] at hocc ⊢
      rcases hocc with ⟨a, b, hab⟩
      refine ⟨a, 's' :: b, ?_⟩
      rw [hab]
      have e : ("projects".toList : Text) = "project".toList ++ ['s'] := rfl
      rw [e, ← List.append_assoc]
      simp [List.append_assoc]
  have hexp : experience t = "Detected" := by
    unfold experience
    rw [if_pos hdet]
  refine ⟨hexp, ?_⟩
  have hne : ¬ (experience t = "Not Detected") := by
    rw [hexp]; decide
  have n1 : sugg6 ≠ sugg1 := by decide
  have n2 : sugg6 ≠ sugg2 := by decide
  have n3 : sugg6 ≠ sugg3 := by decide
  have n4 : sugg6 ≠ sugg4 := by decide
  have n5 : sugg6 ≠ sugg5 := by decide
  have n7 : sugg6 ≠ sugg7 := by decide
  intro hmem
  unfold suggestions at hmem
  simp only [List.mem_append, mem_ite_singleton] at hmem
  rcases hmem with ((((((⟨_, he⟩ | ⟨_, he⟩) | ⟨_, he⟩) | ⟨_, he⟩) | ⟨_, he⟩) |
    ⟨hc, _⟩) | ⟨_, he⟩)
  · exact n1 he
  · exact n2 he
  · exact n3 he
  · exact n4 he
  · exact n5 he
  · exact hne hc
  · exact n7 he

/-- Witness for C10 at the concrete text "experience". -/
theorem C10_section_implies_experience_witness :
    ("experience".toList ∈ present_sections "experience".toList ∨
        "projects".toList ∈ present_sections "experience".toList) ∧
      (experience "experience".toList = "Detected" ∧
        sugg6 ∉ suggestions "experience".toList) :=
  ⟨Or.inl (by decide),
    C10_section_implies_experience "experience".toList (Or.inl (by decide))⟩

end ResumeATS
